import Mathlib

/-!
Shallow embedding of the `toy_compiler` repository (a scanner, recursive-descent
parser and tree-walking interpreter for a small dynamically typed language,
written in Rust) together with theorems settling the specification claims.

Conventions of the embedding:
* Rust `f64` numbers are modelled as `ℚ`.  This is an exact idealization:
  IEEE-754 rounding, overflow to infinity (reachable in the program, e.g. a
  309-digit scanner literal divided by `0.5`) and NaN are not representable
  in the model.  Every claim settled against the model exercises only small
  integral values, where the two domains agree exactly; a claim that turns
  on the floating-point-specific behaviour itself is not settled against
  this model.
* Rust `HashMap<String, V>` is modelled as an association list with
  insert-or-replace semantics (`alInsert`) and key lookup (`alLookup`); the
  claims only depend on the map operations `insert`, `get` and `contains_key`.
* The singly linked chain of `Environment` frames
  (`enclosing : Option<Box<Environment>>` in `src/environment.rs`) is modelled
  as a list of frames, head = innermost frame, empty list = "no enclosing
  environment" (the `None` case of the recursive methods).
* Rust mutation is modelled by explicit state passing; a function that can
  fail with `Error` and mutates state returns `State × Except Error α`, so
  that mutations performed before the failure are kept, exactly as in Rust
  where the error value propagates while `&mut self` retains its state.
* Loops of the Rust source are modelled with a fuel parameter (structural
  recursion on `Nat`); fuel exhaustion is commented at each definition.
-/

namespace Toy

/-- The `TokenType` from src/src/token.rs. -/
inductive TokenType where
  | LeftParen | RightParen | LeftBrace | RightBrace
  | Comma | Dot | Minus | Plus | Semicolon | Slash | Star
  | Bang | BangEqual
  | Equal | EqualEqual
  | Greater | GreaterEqual
  | Less | LessEqual
  | Identifier | String_ | Number
  | And | Class | Else | False | Fun | For | If | Nil | Or
  | Print | Return | Super | This | True | Var | While
  | Eof
  deriving DecidableEq, BEq, Repr

/-- The `Literal` from src/src/token.rs; `f64` is modelled as `ℚ`. -/
inductive Literal where
  | Number (x : ℚ)
  | String_ (s : String)
  | Bool (b : Bool)
  | Nil
  deriving DecidableEq, Repr

/-- The `Value` from src/src/token.rs: the runtime value domain, structurally
identical to `Literal` (same constructors, runtime provenance).  `Number`
carries exact `ℚ` where the source carries `f64`: the IEEE-754 special
values (infinity, NaN) have no counterpart here, so floating-point-specific
behaviour of the program is outside this model. -/
inductive Value where
  | Number (x : ℚ)
  | String_ (s : String)
  | Bool (b : Bool)
  | Nil
  deriving DecidableEq, Repr

/-- The `Token` from src/src/token.rs. -/
structure Token where
  type_ : TokenType
  lexeme : String
  literal : Literal
  line : Nat
  deriving DecidableEq, Repr

/-- The `Error` from src/src/error.rs. -/
inductive Error where
  | ScanError
  | ParseError
  | RuntimeError (token : Token) (message : String)
  deriving DecidableEq, Repr

/-- The `impl From<Literal> for Value` from src/src/token.rs. -/
def Value.fromLiteral : Literal → Value
  | .Number x => .Number x
  | .String_ x => .String_ x
  | .Bool x => .Bool x
  | .Nil => .Nil

/-- Decimal rendering of a rational, mirroring Rust's `Display for f64` on the
integral values the claims exercise (`1` prints as "1", `-2` as "-2").
Non-integral rationals are rendered as fractions; no claim depends on them. -/
def ratToString (q : ℚ) : String :=
  if q.den = 1 then toString q.num else toString q.num ++ "/" ++ toString q.den

/-- The `impl fmt::Display for Value` from src/src/token.rs. -/
def Value.toDisplay : Value → String
  | .Number x => ratToString x
  | .String_ x => x
  | .Bool x => toString x
  | .Nil => "nil"

/-- The `Expr` from src/src/expr.rs. -/
inductive Expr where
  | Assign (name : Token) (value : Expr)
  | Binary (left : Expr) (operator : Token) (right : Expr)
  | Grouping (expression : Expr)
  | Literal (value : Literal)
  | Logical (left : Expr) (operator : Token) (right : Expr)
  | Unary (operator : Token) (right : Expr)
  | Variable (name : Token)
  deriving Repr

/-- The `Stmt` from src/src/stmt.rs. -/
inductive Stmt where
  | Block (statements : List Stmt)
  | Expression (expression : Expr)
  | If (condition : Expr) (thenBranch : Stmt) (elseBranch : Option Stmt)
  | Print (expression : Expr)
  | While (condition : Expr) (body : Stmt)
  | Var (name : Token) (initializer : Option Expr)
  deriving Repr

/-! ### Association lists (model of `HashMap<String, V>`) -/

/-- Insert-or-replace, the model of `HashMap::insert`. -/
def alInsert {α : Type} : List (String × α) → String → α → List (String × α)
  | [], k, v => [(k, v)]
  | (k', v') :: rest, k, v =>
    if k' = k then (k, v) :: rest else (k', v') :: alInsert rest k v

/-- Key lookup, the model of `HashMap::get`. -/
def alLookup {α : Type} : List (String × α) → String → Option α
  | [], _ => none
  | (k', v') :: rest, k => if k' = k then some v' else alLookup rest k

/-- Key membership, the model of `HashMap::contains_key`. -/
def alContains {α : Type} (l : List (String × α)) (k : String) : Bool :=
  (alLookup l k).isSome

/-! ### Environment (src/src/environment.rs)

One Rust `Environment` value is a frame (its `values` and `parent_modified`
maps) plus its `enclosing` chain; we model the whole chain as a `List Frame`
with the innermost frame first.  `[]` plays the role of `enclosing == None`
exhausted: the recursive methods fall into their "no enclosing scope" branch
exactly when the list is empty. -/

/-- The per-frame data of `Environment`: `values` (uninitialized identifiers
hold `none`) and `parent_modified` (writes forwarded into the cloned parent,
recorded so `update` could replay them). -/
structure Frame where
  values : List (String × Option Value)
  parentModified : List (String × Value)
  deriving DecidableEq, Repr

/-- An environment chain, innermost frame first. -/
def Environment := List Frame

instance : DecidableEq Environment :=
  inferInstanceAs (DecidableEq (List Frame))

instance : Repr Environment :=
  inferInstanceAs (Repr (List Frame))

/-- The `Environment::new` from src/src/environment.rs: a fresh frame with empty
maps in front of the (cloned) enclosing chain. -/
def Environment.new (enclosing : Option Environment) : Environment :=
  { values := [], parentModified := [] } :: (enclosing.getD [])

/-- The `Environment::undefined_variable_error` from src/src/environment.rs. -/
def undefinedVariableError (token : Token) : Error :=
  .RuntimeError token ("Undefined variable '" ++ token.lexeme ++ "'.")

/-- The `Environment::define` from src/src/environment.rs: insert or overwrite in
the current (innermost) frame.  The empty-chain case is unreachable (every
constructed environment is nonempty). -/
def Environment.define : Environment → String → Option Value → Environment
  | [], _, _ => []
  | f :: rest, name, value => { f with values := alInsert f.values name value } :: rest

/-- The `Environment::get` from src/src/environment.rs: look up the current frame,
else recurse into the enclosing chain, else `Undefined variable`. -/
def Environment.get : Environment → Token → Except Error (Option Value)
  | [], name => .error (undefinedVariableError name)
  | f :: rest, name =>
    match alLookup f.values name.lexeme with
    | some x => .ok x
    | none => Environment.get rest name

/-- The `Environment::assign` from src/src/environment.rs: overwrite in the current
frame if it defines the name; otherwise recurse into the enclosing chain and,
on success, record the write in this frame's `parent_modified`; error when the
chain is exhausted. -/
def Environment.assign : Environment → Token → Value → Except Error Environment
  | [], name, _ => .error (undefinedVariableError name)
  | f :: rest, name, v =>
    if alContains f.values name.lexeme then
      .ok ({ f with values := alInsert f.values name.lexeme (some v) } :: rest)
    else
      match Environment.assign rest name v with
      | .error e => .error e
      | .ok rest' =>
        .ok ({ f with parentModified := alInsert f.parentModified name.lexeme v } :: rest')

/-- Whether some frame of the chain defines `name` (the scope-chain search
performed by `assign`). -/
def chainDefines (env : Environment) (name : String) : Bool :=
  match env with
  | [] => false
  | f :: rest => alContains f.values name || chainDefines rest name

/-! ### Interpreter (src/src/interpreter.rs)

Expression evaluation mutates the environment (through `Assign`), so
`evalExpr` threads an `Environment`; statement execution additionally writes
to the output sink (`println!` in `visit_print_stmt`), so `execStmt` threads
an `InterpState`.  Errors keep the state reached so far, as in Rust where the
error value propagates while `&mut self` retains its mutations.  Reporting of
the propagated runtime error to stderr (`crate::error_token` in `interpret`)
is a side effect outside the value domain and is not modelled. -/

/-- The state owned by one interpreter run: the active environment chain and
the lines written to the output sink by `print` statements. -/
structure InterpState where
  env : Environment
  output : List String
  deriving DecidableEq, Repr

/-- The `Interpreter::is_truthy` from src/src/interpreter.rs: nil and false are
falsy, everything else is truthy. -/
def isTruthy : Value → Bool
  | .Nil => false
  | .Bool x => x
  | _ => true

/-- The `Interpreter::operand_not_number_error` from src/src/interpreter.rs. -/
def operandNotNumberError (token : Token) : Error :=
  .RuntimeError token "Operand(s) must be a number."

/-- Model of the `unreachable!()` arms of the visitors: operator kinds the
parser never attaches to that node kind.  No claim exercises these arms. -/
def unreachableError (token : Token) : Error :=
  .RuntimeError token "unreachable"

/-- The operator dispatch of `visit_binary_expr` from src/src/interpreter.rs,
applied once both operands have been evaluated.  The arithmetic arms compute
exact rational results where the source computes `f64` results; in the
program extreme operands can round or overflow (e.g. to `+inf` under `/`
with a nonzero divisor), which this model cannot reproduce — the claims
settled against it use only small integral operands, where the domains
agree. -/
def binaryOp (leftEval : Value) (operator : Token) (rightEval : Value) :
    Except Error Value :=
  match operator.type_ with
  | .Greater =>
    match leftEval, rightEval with
    | .Number x, .Number y => .ok (.Bool (decide (x > y)))
    | _, _ => .error (operandNotNumberError operator)
  | .GreaterEqual =>
    match leftEval, rightEval with
    | .Number x, .Number y => .ok (.Bool (decide (x ≥ y)))
    | _, _ => .error (operandNotNumberError operator)
  | .Less =>
    match leftEval, rightEval with
    | .Number x, .Number y => .ok (.Bool (decide (x < y)))
    | _, _ => .error (operandNotNumberError operator)
  | .LessEqual =>
    match leftEval, rightEval with
    | .Number x, .Number y => .ok (.Bool (decide (x ≤ y)))
    | _, _ => .error (operandNotNumberError operator)
  | .Minus =>
    match leftEval, rightEval with
    | .Number x, .Number y => .ok (.Number (x - y))
    | _, _ => .error (operandNotNumberError operator)
  | .Slash =>
    match leftEval, rightEval with
    | .Number x, .Number y =>
      if y = 0 then .error (.RuntimeError operator "Divide by zero.")
      else .ok (.Number (x / y))
    | _, _ => .error (operandNotNumberError operator)
  | .Star =>
    match leftEval, rightEval with
    | .Number x, .Number y => .ok (.Number (x * y))
    | _, _ => .error (operandNotNumberError operator)
  | .Plus =>
    match leftEval, rightEval with
    | .Number x, .Number y => .ok (.Number (x + y))
    | x, y => .ok (.String_ (x.toDisplay ++ y.toDisplay))
  | .BangEqual => .ok (.Bool (decide (leftEval ≠ rightEval)))
  | .EqualEqual => .ok (.Bool (decide (leftEval = rightEval)))
  | _ => .error (unreachableError operator)

/-- Modelled from the spec: the implementation of `visit_logical_expr` for
`Interpreter` is absent from src/src/interpreter.rs (the `ExprVisitor` trait
in src/src/expr.rs declares the method and `accept_expr` dispatches to it,
but the `impl ExprVisitor for Interpreter` block has no arm for it).
Following spec §4.5, Logical `and`/`or`: short-circuit.  `and`: evaluate
left; if falsy, return left without evaluating right.  `or`: evaluate left;
if truthy, return left.  Otherwise evaluate and return right.  The first
argument is the already-computed evaluation of the left operand; the last
evaluates the right operand on demand. -/
def visit_logical_expr (leftRes : Environment × Except Error Value)
    (operator : Token)
    (evalRight : Environment → Environment × Except Error Value) :
    Environment × Except Error Value :=
  match leftRes with
  | (env1, .error e) => (env1, .error e)
  | (env1, .ok lv) =>
    match operator.type_ with
    | .And => if isTruthy lv then evalRight env1 else (env1, .ok lv)
    | .Or => if isTruthy lv then (env1, .ok lv) else evalRight env1
    | _ => (env1, .error (unreachableError operator))

/-- The `ExprVisitor` implementation for `Interpreter` from
src/src/interpreter.rs (`visit_literal_expr`, `visit_grouping_expr`,
`visit_unary_expr`, `visit_binary_expr`, `visit_variable_expr`,
`visit_assign_expr`), dispatched as in `accept_expr` of src/src/expr.rs; the
`Logical` arm delegates to the spec-modelled `visit_logical_expr`. -/
def evalExpr : Expr → Environment → Environment × Except Error Value
  | .Literal value, env => (env, .ok (Value.fromLiteral value))
  | .Grouping e, env => evalExpr e env
  | .Unary op r, env =>
    match evalExpr r env with
    | (env1, .error e) => (env1, .error e)
    | (env1, .ok rv) =>
      match op.type_ with
      | .Bang => (env1, .ok (.Bool (! isTruthy rv)))
      | .Minus =>
        match rv with
        | .Number x => (env1, .ok (.Number (-x)))
        | _ => (env1, .error (operandNotNumberError op))
      | _ => (env1, .error (unreachableError op))
  | .Binary l op r, env =>
    match evalExpr l env with
    | (env1, .error e) => (env1, .error e)
    | (env1, .ok lv) =>
      match evalExpr r env1 with
      | (env2, .error e) => (env2, .error e)
      | (env2, .ok rv) => (env2, binaryOp lv op rv)
  | .Logical l op r, env =>
    visit_logical_expr (evalExpr l env) op (fun env1 => evalExpr r env1)
  | .Variable name, env =>
    match Environment.get env name with
    | .error e => (env, .error e)
    | .ok (some v) => (env, .ok v)
    | .ok none => (env, .error (.RuntimeError name "Variable not initialized."))
  | .Assign name value, env =>
    match evalExpr value env with
    | (env1, .error e) => (env1, .error e)
    | (env1, .ok v) =>
      match Environment.assign env1 name v with
      | .error e => (env1, .error e)
      | .ok env2 => (env2, .ok v)

/-- The statement loop of `execute_block` from src/src/interpreter.rs:
execute the statements in order, returning at the first error (the `?` in
`self.execute(statement)?`), keeping the state reached so far.  `exec1` is
the interpreter's `execute`. -/
def runSeq (exec1 : Stmt → InterpState → Option (InterpState × Except Error Unit)) :
    List Stmt → InterpState → Option (InterpState × Except Error Unit)
  | [], st => some (st, .ok ())
  | s :: rest, st =>
    match exec1 s st with
    | none => none
    | some (st', .error e) => some (st', .error e)
    | some (st', .ok _) => runSeq exec1 rest st'

/-- The `StmtVisitor` implementation for `Interpreter` from
src/src/interpreter.rs (`visit_block_stmt` with `execute_block`,
`visit_expression_stmt`, `visit_print_stmt`, `visit_var_stmt`), dispatched as
in `accept_stmt` of src/src/stmt.rs.  The `If` and `While` arms are modelled
from the spec (see the comments in those arms); fuel `0` is `none`
(nontermination of the source is outside the model). -/
def execStmt : Nat → Stmt → InterpState → Option (InterpState × Except Error Unit)
  | 0, _, _ => none
  | fuel + 1, stmt, st =>
    match stmt with
    | .Block statements =>
      -- visit_block_stmt: the new environment encloses a CLONE of the current
      -- one; execute_block swaps it in, runs the statements, and swaps back
      -- only on the normal exit (the early return on error skips the second
      -- mem::swap, and nothing ever calls Environment::update).
      let newEnv := Environment.new (some st.env)
      match runSeq (execStmt fuel) statements { st with env := newEnv } with
      | none => none
      | some (st', .error e) => some (st', .error e)
      | some (st', .ok _) => some ({ st' with env := st.env }, .ok ())
    | .Expression e =>
      match evalExpr e st.env with
      | (env', .error err) => some ({ st with env := env' }, .error err)
      | (env', .ok _) => some ({ st with env := env' }, .ok ())
    | .Print e =>
      match evalExpr e st.env with
      | (env', .error err) => some ({ st with env := env' }, .error err)
      | (env', .ok v) =>
        some ({ env := env', output := st.output ++ [v.toDisplay] }, .ok ())
    | .Var name initializer =>
      match initializer with
      | some e =>
        match evalExpr e st.env with
        | (env', .error err) => some ({ st with env := env' }, .error err)
        | (env', .ok v) =>
          some ({ st with env := Environment.define env' name.lexeme (some v) }, .ok ())
      | none =>
        some ({ st with env := Environment.define st.env name.lexeme none }, .ok ())
    | .If condition thenBranch elseBranch =>
      -- Modelled from the spec (§4.5): `visit_if_stmt` is absent from
      -- src/src/interpreter.rs; If branches purely on the condition's
      -- truthiness.
      match evalExpr condition st.env with
      | (env', .error err) => some ({ st with env := env' }, .error err)
      | (env', .ok v) =>
        if isTruthy v then execStmt fuel thenBranch { st with env := env' }
        else
          match elseBranch with
          | some s => execStmt fuel s { st with env := env' }
          | none => some ({ st with env := env' }, .ok ())
    | .While condition body =>
      -- Modelled from the spec (§4.5): `visit_while_stmt` is absent from
      -- src/src/interpreter.rs; While loops purely on the condition's
      -- truthiness.
      match evalExpr condition st.env with
      | (env', .error err) => some ({ st with env := env' }, .error err)
      | (env', .ok v) =>
        if isTruthy v then
          match execStmt fuel body { st with env := env' } with
          | none => none
          | some (st', .error err) => some (st', .error err)
          | some (st', .ok _) => execStmt fuel (.While condition body) st'
        else some ({ st with env := env' }, .ok ())

/-- The `Interpreter::interpret` from src/src/interpreter.rs: execute the
statements in order; the first `RuntimeError` is reported and returned,
aborting the remaining statements. -/
def interpret (fuel : Nat) : List Stmt → InterpState → Option (InterpState × Except Error Unit)
  | [], st => some (st, .ok ())
  | s :: rest, st =>
    match execStmt fuel s st with
    | none => none
    | some (st', .error (.RuntimeError tok msg)) =>
      some (st', .error (.RuntimeError tok msg))
    | some (st', _) => interpret fuel rest st'

/-- An identifier token (scanner-produced identifiers carry `Literal::Nil`). -/
def identTok (s : String) : Token := ⟨.Identifier, s, .Nil, 1⟩

/-- An operator token. -/
def opTok (t : TokenType) (lex : String) : Token := ⟨t, lex, .Nil, 1⟩

/-- The statements of `var a; { a = 5; } print a;`. -/
def c1Program : List Stmt :=
  [ .Var (identTok "a") none,
    .Block [ .Expression (.Assign (identTok "a") (.Literal (.Number 5))) ],
    .Print (.Variable (identTok "a")) ]

/-- The `Plus` arm of `visit_binary_expr` as the spec describes it: numeric
addition when both values are numbers, otherwise concatenation of the two
string representations — always a value, never an error. -/
def plusValue : Value → Value → Value
  | .Number x, .Number y => .Number (x + y)
  | x, y => .String_ (x.toDisplay ++ y.toDisplay)

/-! ### Scanner (src/src/scanner.rs)

The Rust scanner indexes `source` by `chars().nth(..)` but measures length
(`is_at_end`) and slices lexemes in bytes.  The two index domains coincide
exactly on ASCII sources, and `source` is modelled as a `List Char` with
that one shared domain; on a source containing a multi-byte character the
Rust code's char-indexed `unwrap`s (and its byte slicing) can panic — an
abort path this model does not represent, so every theorem below about
arbitrary sources restricts them to ASCII.  `error` (which prints through
`crate::error_line` and sets `had_error`) is modelled by appending to a
`diags` list and setting `hadError`.  Each `while` loop of the source gets a
fuel parameter; fuel `0` stops the loop early with the state reached so far
(every loop of the source terminates, fuel merely makes the model total). -/

/-- The `Scanner` struct from src/src/scanner.rs, plus the `diags` list
modelling the diagnostics printed through `crate::error_line`. -/
structure ScanState where
  source : List Char
  tokens : List Token
  start : Nat
  current : Nat
  line : Nat
  hadError : Bool
  diags : List (Nat × String)
  deriving DecidableEq, Repr

namespace Scanner

/-- The `Scanner::is_at_end`: `current >= source.len()`.  The source compares
against the byte length; this model compares against the char count, the
same number on the ASCII sources the theorems restrict to (on a non-ASCII
source the Rust mismatch leads to the panic noted in the section header). -/
def isAtEnd (st : ScanState) : Bool := st.source.length ≤ st.current

/-- The `Scanner::advance`: increment `current` unless at end, then return the
character before the (new) cursor.  The `chars().nth(current - 1).unwrap()`
is modelled by a NUL junk default; on the ASCII sources the theorems
restrict to, the index is in range except for an empty source (in Rust the
unwrap also panics on non-ASCII sources, the path outside this model). -/
def advance (st : ScanState) : ScanState × Char :=
  let st' := if isAtEnd st then st else { st with current := st.current + 1 }
  (st', (st'.source.get? (st'.current - 1)).getD '\x00')

/-- The `Scanner::match_next`: consume the next character iff it is `expected`. -/
def matchNext (st : ScanState) (expected : Char) : ScanState × Bool :=
  if isAtEnd st then (st, false)
  else if (st.source.get? st.current).getD '\x00' ≠ expected then (st, false)
  else ({ st with current := st.current + 1 }, true)

/-- The `Scanner::peek`: the character at `current`, or `'\0'` at end. -/
def peek (st : ScanState) : Char :=
  if isAtEnd st then '\x00' else (st.source.get? st.current).getD '\x00'

/-- The `Scanner::peek_next`: the character after `current`, or `'\0'` past end. -/
def peekNext (st : ScanState) : Char :=
  if st.source.length ≤ st.current + 1 then '\x00'
  else (st.source.get? (st.current + 1)).getD '\x00'

/-- The `Scanner::error`: report through `crate::error_line` (modelled by
`diags`) and set `had_error`. -/
def error (st : ScanState) (message : String) : ScanState :=
  { st with diags := st.diags ++ [(st.line, message)], hadError := true }

/-- The lexeme `&self.source[self.start..self.current]`. -/
def lexemeOf (st : ScanState) : String :=
  String.mk ((st.source.drop st.start).take (st.current - st.start))

/-- The `Scanner::add_full_token`. -/
def addFullToken (st : ScanState) (type_ : TokenType) (literal : Literal) : ScanState :=
  { st with tokens := st.tokens ++ [⟨type_, lexemeOf st, literal, st.line⟩] }

/-- The `Scanner::add_token`. -/
def addToken (st : ScanState) (type_ : TokenType) : ScanState :=
  addFullToken st type_ .Nil

/-- The `KEYWORDS` table from src/src/scanner.rs. -/
def keywords : String → Option TokenType
  | "and" => some .And
  | "class" => some .Class
  | "else" => some .Else
  | "false" => some .False
  | "for" => some .For
  | "fun" => some .Fun
  | "if" => some .If
  | "nil" => some .Nil
  | "or" => some .Or
  | "print" => some .Print
  | "return" => some .Return
  | "super" => some .Super
  | "this" => some .This
  | "true" => some .True
  | "var" => some .Var
  | "while" => some .While
  | _ => none

/-- The `//`-comment loop of `scan_token`: consume until end of line. -/
def lineCommentLoop : Nat → ScanState → ScanState
  | 0, st => st
  | fuel + 1, st =>
    if peek st ≠ '\n' ∧ ¬ isAtEnd st then lineCommentLoop fuel (advance st).1
    else st

/-- The `/* ... */`-comment loop of `scan_token`, with the source's exact
condition `peek() != '*' && peek_next() != '/' && !is_at_end()`. -/
def blockCommentLoop : Nat → ScanState → ScanState
  | 0, st => st
  | fuel + 1, st =>
    if peek st ≠ '*' ∧ peekNext st ≠ '/' ∧ ¬ isAtEnd st then
      let st := if peek st = '\n' then { st with line := st.line + 1 } else st
      blockCommentLoop fuel (advance st).1
    else st

/-- The consuming loop of `Scanner::string`. -/
def stringLoop : Nat → ScanState → ScanState
  | 0, st => st
  | fuel + 1, st =>
    if peek st ≠ '"' ∧ ¬ isAtEnd st then
      let st := if peek st = '\n' then { st with line := st.line + 1 } else st
      stringLoop fuel (advance st).1
    else st

/-- The `Scanner::string`. -/
def string (fuel : Nat) (st : ScanState) : ScanState :=
  let st := stringLoop fuel st
  if isAtEnd st then error st "Unterminated string"
  else
    let st := (advance st).1
    let s := Literal.String_
      (String.mk ((st.source.drop (st.start + 1)).take (st.current - 1 - (st.start + 1))))
    addFullToken st .String_ s

/-- A digit-consuming loop of `Scanner::number`. -/
def digitLoop : Nat → ScanState → ScanState
  | 0, st => st
  | fuel + 1, st =>
    if (peek st).isDigit then digitLoop fuel (advance st).1 else st

/-- The value of a digit string. -/
def digitsToNat (cs : List Char) : Nat :=
  cs.foldl (fun a c => a * 10 + (c.toNat - 48)) 0

/-- The `parse::<f64>().unwrap()` of `Scanner::number` on the digit-dot-digit
lexemes the scanner produces, in exact arithmetic: all digits over ten to the
number of fractional digits. -/
def parseDecimal (cs : List Char) : ℚ :=
  let intPart := cs.takeWhile (fun c => c ≠ '.')
  let frac := (cs.dropWhile (fun c => c ≠ '.')).drop 1
  mkRat (Int.ofNat (digitsToNat (intPart ++ frac))) (10 ^ frac.length)

/-- The `Scanner::number`: digits, a `.` only when followed by a digit, then the
fractional digits. -/
def number (fuel : Nat) (st : ScanState) : ScanState :=
  let st := digitLoop fuel st
  let st :=
    if peek st = '.' ∧ (peekNext st).isDigit then (advance st).1 else st
  let st := digitLoop fuel st
  let s := Literal.Number (parseDecimal ((st.source.drop st.start).take (st.current - st.start)))
  addFullToken st .Number s

/-- The identifier-consuming loop of `Scanner::identifier`. -/
def identLoop : Nat → ScanState → ScanState
  | 0, st => st
  | fuel + 1, st =>
    if (peek st).isAlphanum ∨ peek st = '_' then identLoop fuel (advance st).1
    else st

/-- The `Scanner::identifier`: maximal alphanumeric/underscore run, then the
keyword table with `Identifier` as the default. -/
def identifier (fuel : Nat) (st : ScanState) : ScanState :=
  let st := identLoop fuel st
  let s := lexemeOf st
  addToken st ((keywords s).getD .Identifier)

/-- The `Scanner::scan_token` from src/src/scanner.rs.  The Rust `match` on the
character (with its `'0'..='9'` and letter ranges) is written as a chain of
comparisons. -/
def scanToken (fuel : Nat) (st : ScanState) : ScanState :=
  let (st, c) := advance st
  if c = '(' then addToken st .LeftParen
  else if c = ')' then addToken st .RightParen
  else if c = '\x7b' then addToken st .LeftBrace
  else if c = '\x7d' then addToken st .RightBrace
  else if c = ',' then addToken st .Comma
  else if c = '.' then addToken st .Dot
  else if c = '-' then addToken st .Minus
  else if c = '+' then addToken st .Plus
  else if c = ';' then addToken st .Semicolon
  else if c = '*' then addToken st .Star
  else if c = '!' then
    let (st, m) := matchNext st '='
    addToken st (if m then .BangEqual else .Bang)
  else if c = '=' then
    let (st, m) := matchNext st '='
    addToken st (if m then .EqualEqual else .Equal)
  else if c = '<' then
    let (st, m) := matchNext st '='
    addToken st (if m then .LessEqual else .Less)
  else if c = '>' then
    let (st, m) := matchNext st '='
    addToken st (if m then .GreaterEqual else .Greater)
  else if c = '/' then
    let (st, m) := matchNext st '/'
    if m then lineCommentLoop fuel st
    else
      let (st, m) := matchNext st '*'
      if m then
        let st := blockCommentLoop fuel st
        -- consume `*` then `/` (unconditionally, as in the source)
        let st := (advance st).1
        (advance st).1
      else addToken st .Slash
  else if c = ' ' ∨ c = '\r' ∨ c = '\t' then st
  else if c = '\n' then { st with line := st.line + 1 }
  else if c = '"' then string fuel st
  else if '0' ≤ c ∧ c ≤ '9' then number fuel st
  else if ('a' ≤ c ∧ c ≤ 'z') ∨ ('A' ≤ c ∧ c ≤ 'Z') ∨ c = '_' then identifier fuel st
  else error st "Unexpected character"

/-- The scanning loop of `Scanner::scan_tokens`: reset `start` and scan one
token while not at end. -/
def scanLoop : Nat → ScanState → ScanState
  | 0, st => st
  | fuel + 1, st =>
    if isAtEnd st then st
    else scanLoop fuel (scanToken fuel { st with start := st.current })

/-- The `Scanner::new`. -/
def new (source : String) : ScanState :=
  ⟨source.data, [], 0, 0, 1, false, []⟩

/-- The `Scanner::scan_tokens` from src/src/scanner.rs: run the loop, append the
`Eof` token, then return `Err(ScanError)` when `had_error` is set, otherwise
`Ok(tokens)`.  Returned as (final scanner state, result). -/
def scanTokens (fuel : Nat) (source : String) : ScanState × Except Error (List Token) :=
  let st := scanLoop fuel (new source)
  let st := { st with tokens := st.tokens ++ [⟨.Eof, "", .Nil, st.line⟩] }
  (st, if st.hadError then .error .ScanError else .ok st.tokens)

end Scanner

/-! ### Parser (src/src/parser.rs)

Recursive descent with one token of lookahead.  The parser state is the token
list, the `current` cursor, and the diagnostics reported through
`crate::error_token` (modelled as a list).  `Parser::error` reports and
returns `Error::ParseError`; the `?` propagation of the source is modelled by
`pbind`.  Every recursive production takes a fuel parameter (structural
recursion on `Nat`); fuel `0` yields `(st, .error .ParseError)` so that a
successful result can only arise from genuinely completed parse steps, except
in `parseLoop` whose only exit in the source returns `Ok` (see there). -/

/-- The `Parser` struct from src/src/parser.rs plus the diagnostics reported
through `crate::error_token`. -/
structure PState where
  tokens : List Token
  current : Nat
  diags : List (Token × String)
  deriving DecidableEq, Repr

/-- Propagation of a parse error (the `?` operator): on error keep the state
and the error, otherwise continue. -/
def pbind {α β : Type} (x : PState × Except Error α)
    (f : PState → α → PState × Except Error β) : PState × Except Error β :=
  match x with
  | (st, .error e) => (st, .error e)
  | (st, .ok a) => f st a

namespace Parser

/-- Junk token modelling the panics of `tokens.get(..).unwrap()` /
`.expect(..)`; unreachable when the token list ends in the `Eof` token. -/
def junkToken : Token := ⟨.Eof, "", .Nil, 0⟩

/-- The `Parser::peek`. -/
def peek (st : PState) : Token := (st.tokens.get? st.current).getD junkToken

/-- The `Parser::previous`. -/
def previous (st : PState) : Token := (st.tokens.get? (st.current - 1)).getD junkToken

/-- The `Parser::is_at_end`. -/
def isAtEnd (st : PState) : Bool := (peek st).type_ == .Eof

/-- The `Parser::advance`: move the cursor unless at end and return the (new)
previous token. -/
def advance (st : PState) : PState × Token :=
  let st' := if isAtEnd st then st else { st with current := st.current + 1 }
  (st', previous st')

/-- The `Parser::check`. -/
def check (st : PState) (t : TokenType) : Bool :=
  if isAtEnd st then false else (peek st).type_ == t

/-- The `Parser::match_next`: if one of `ts` matches the next token, consume it. -/
def matchNext (st : PState) (ts : List TokenType) : PState × Bool :=
  if ts.any (fun t => check st t) then ((advance st).1, true) else (st, false)

/-- The `Parser::error`: report through `crate::error_token` (modelled by
`diags`) and produce `Error::ParseError`. -/
def perror (st : PState) (tok : Token) (msg : String) : PState × Error :=
  ({ st with diags := st.diags ++ [(tok, msg)] }, .ParseError)

/-- The `Parser::match_err`: consume the expected token or report an error. -/
def matchErr (st : PState) (t : TokenType) (msg : String) : PState × Except Error Token :=
  if check st t then
    let (st', tk) := advance st
    (st', .ok tk)
  else
    let (st', e) := perror st (peek st) msg
    (st', .error e)

/-- The loop of `Parser::synchronize`: skip tokens until just after a `;` or
just before a statement-starting keyword. -/
def syncLoop : Nat → PState → PState
  | 0, st => st
  | fuel + 1, st =>
    if isAtEnd st then st
    else if (previous st).type_ == .Semicolon then st
    else if [TokenType.Class, .Fun, .Var, .For, .If, .While, .Print,
             .Return].contains (peek st).type_ then st
    else syncLoop fuel (advance st).1

/-- The `Parser::synchronize`: advance once, then skip to a statement boundary. -/
def synchronize (fuel : Nat) (st : PState) : PState := syncLoop fuel (advance st).1

mutual

/-- The `Parser::declaration`. -/
def declaration : Nat → PState → PState × Except Error Stmt
  | 0, st => (st, .error .ParseError)
  | fuel + 1, st =>
    let (st1, m) := matchNext st [.Var]
    if m then var_declaration fuel st1 else statement fuel st1

/-- The `Parser::var_declaration`.  The source binds the optional initializer and
then consumes the `;` once; here the `;` step is written in both branches of
the initializer match. -/
def var_declaration : Nat → PState → PState × Except Error Stmt
  | 0, st => (st, .error .ParseError)
  | fuel + 1, st =>
    pbind (matchErr st .Identifier "Expected variable name.") fun st name =>
    let (st, m) := matchNext st [.Equal]
    if m then
      pbind (expression fuel st) fun st init =>
      pbind (matchErr st .Semicolon "Expected ';' after variable declaration.") fun st _ =>
      (st, .ok (.Var name (some init)))
    else
      pbind (matchErr st .Semicolon "Expected ';' after variable declaration.") fun st _ =>
      (st, .ok (.Var name none))

/-- The `Parser::statement`. -/
def statement : Nat → PState → PState × Except Error Stmt
  | 0, st => (st, .error .ParseError)
  | fuel + 1, st =>
    let (st1, m) := matchNext st [.For]
    if m then for_statement fuel st1 else
    let (st2, m) := matchNext st1 [.If]
    if m then if_statement fuel st2 else
    let (st3, m) := matchNext st2 [.Print]
    if m then print_statement fuel st3 else
    let (st4, m) := matchNext st3 [.While]
    if m then while_statement fuel st4 else
    let (st5, m) := matchNext st4 [.LeftBrace]
    if m then pbind (block fuel st5) (fun st l => (st, .ok (.Block l)))
    else expression_statement fuel st5

/-- The initializer clause of `Parser::for_statement` (lines 100-109 of
src/src/parser.rs): `;` means no initializer, `var` a variable declaration,
anything else an expression statement. -/
def forInitializer : Nat → PState → PState × Except Error (Option Stmt)
  | 0, st => (st, .error .ParseError)
  | fuel + 1, st =>
    let (st1, m) := matchNext st [.Semicolon]
    if m then (st1, .ok none) else
    let (st2, m) := matchNext st1 [.Var]
    if m then pbind (var_declaration fuel st2) (fun st x => (st, .ok (some x)))
    else pbind (expression_statement fuel st2) (fun st x => (st, .ok (some x)))

/-- The condition clause of `Parser::for_statement` (lines 111-115): the
boolean-true literal unless a condition expression is present before the
`;`. -/
def forCondition : Nat → PState → PState × Except Error Expr
  | 0, st => (st, .error .ParseError)
  | fuel + 1, st =>
    if ¬ check st .Semicolon then expression fuel st
    else (st, .ok (.Literal (.Bool true)))

/-- The increment clause of `Parser::for_statement` (lines 118-121): an
expression unless `)` follows directly. -/
def forIncrement : Nat → PState → PState × Except Error (Option Expr)
  | 0, st => (st, .error .ParseError)
  | fuel + 1, st =>
    if ¬ check st .RightParen then
      pbind (expression fuel st) (fun st e => (st, .ok (some e)))
    else (st, .ok none)

/-- The `Parser::for_statement` from src/src/parser.rs: parse the three clauses
and the body, then desugar exactly as in lines 133-150: the increment (when
present) is appended to the body in a Block, the result is wrapped in a
While, and the initializer (when present) is prepended in a Block. -/
def for_statement : Nat → PState → PState × Except Error Stmt
  | 0, st => (st, .error .ParseError)
  | fuel + 1, st =>
    pbind (matchErr st .LeftParen "Expect `(` after `for`.") fun st _ =>
    pbind (forInitializer fuel st) fun st initOpt =>
    pbind (forCondition fuel st) fun st cond =>
    pbind (matchErr st .Semicolon "Expected `;` after `for` condition.") fun st _ =>
    pbind (forIncrement fuel st) fun st incOpt =>
    pbind (matchErr st .RightParen "Expected `)` after `for` clause.") fun st _ =>
    pbind (statement fuel st) fun st body =>
    let body1 : Stmt :=
      match incOpt with
      | some inc => .Block [body, .Expression inc]
      | none => body
    let body2 : Stmt := .While cond body1
    let body3 : Stmt :=
      match initOpt with
      | some init => .Block [init, body2]
      | none => body2
    (st, .ok body3)

/-- The `Parser::if_statement`. -/
def if_statement : Nat → PState → PState × Except Error Stmt
  | 0, st => (st, .error .ParseError)
  | fuel + 1, st =>
    pbind (matchErr st .LeftParen "Expected `(` after `if`.") fun st _ =>
    pbind (expression fuel st) fun st cond =>
    pbind (matchErr st .RightParen "Expected ')' after condition.") fun st _ =>
    pbind (statement fuel st) fun st thenB =>
    let (st, m) := matchNext st [.Else]
    if m then
      pbind (statement fuel st) fun st elseB => (st, .ok (.If cond thenB (some elseB)))
    else (st, .ok (.If cond thenB none))

/-- The `Parser::print_statement`. -/
def print_statement : Nat → PState → PState × Except Error Stmt
  | 0, st => (st, .error .ParseError)
  | fuel + 1, st =>
    pbind (expression fuel st) fun st v =>
    pbind (matchErr st .Semicolon "Expected `;` after value.") fun st _ =>
    (st, .ok (.Print v))

/-- The `Parser::while_statement`. -/
def while_statement : Nat → PState → PState × Except Error Stmt
  | 0, st => (st, .error .ParseError)
  | fuel + 1, st =>
    pbind (matchErr st .LeftParen "Expected `(` after `while`.") fun st _ =>
    pbind (expression fuel st) fun st cond =>
    pbind (matchErr st .RightParen "Expected ')' after condition.") fun st _ =>
    pbind (statement fuel st) fun st body =>
    (st, .ok (.While cond body))

/-- The declaration loop of `Parser::block`. -/
def blockLoop : Nat → PState → List Stmt → PState × Except Error (List Stmt)
  | 0, st, _ => (st, .error .ParseError)
  | fuel + 1, st, acc =>
    if ¬ check st .RightBrace ∧ ¬ isAtEnd st then
      pbind (declaration fuel st) fun st d => blockLoop fuel st (acc ++ [d])
    else
      pbind (matchErr st .RightBrace "Expected `\x7d` after block.") fun st _ =>
      (st, .ok acc)

/-- The `Parser::block`. -/
def block : Nat → PState → PState × Except Error (List Stmt)
  | 0, st => (st, .error .ParseError)
  | fuel + 1, st => blockLoop fuel st []

/-- The `Parser::expression_statement`. -/
def expression_statement : Nat → PState → PState × Except Error Stmt
  | 0, st => (st, .error .ParseError)
  | fuel + 1, st =>
    pbind (expression fuel st) fun st e =>
    pbind (matchErr st .Semicolon "Expected `;` after expression.") fun st _ =>
    (st, .ok (.Expression e))

/-- The `Parser::expression`. -/
def expression : Nat → PState → PState × Except Error Expr
  | 0, st => (st, .error .ParseError)
  | fuel + 1, st => assignment fuel st

/-- The `Parser::assignment`: right-associative; an invalid target is reported
but the original left-hand expression is returned unchanged (non-fatal). -/
def assignment : Nat → PState → PState × Except Error Expr
  | 0, st => (st, .error .ParseError)
  | fuel + 1, st =>
    pbind (logic_or fuel st) fun st e =>
    let (st, m) := matchNext st [.Equal]
    if m then
      let equals := previous st
      pbind (assignment fuel st) fun st value =>
      match e with
      | .Variable name => (st, .ok (.Assign name value))
      | _ =>
        let (st, _) := perror st equals "Invalid assignment target."
        (st, .ok e)
    else (st, .ok e)

/-- The `Parser::logic_or`. -/
def logic_or : Nat → PState → PState × Except Error Expr
  | 0, st => (st, .error .ParseError)
  | fuel + 1, st => pbind (logic_and fuel st) fun st e => logicOrLoop fuel st e

/-- The operator loop of `Parser::logic_or`, left-folding `Logical` nodes. -/
def logicOrLoop : Nat → PState → Expr → PState × Except Error Expr
  | 0, st, _ => (st, .error .ParseError)
  | fuel + 1, st, e =>
    let (st, m) := matchNext st [.Or]
    if m then
      let op := previous st
      pbind (logic_and fuel st) fun st r => logicOrLoop fuel st (.Logical e op r)
    else (st, .ok e)

/-- The `Parser::logic_and`. -/
def logic_and : Nat → PState → PState × Except Error Expr
  | 0, st => (st, .error .ParseError)
  | fuel + 1, st => pbind (equality fuel st) fun st e => logicAndLoop fuel st e

/-- The operator loop of `Parser::logic_and`. -/
def logicAndLoop : Nat → PState → Expr → PState × Except Error Expr
  | 0, st, _ => (st, .error .ParseError)
  | fuel + 1, st, e =>
    let (st, m) := matchNext st [.And]
    if m then
      let op := previous st
      pbind (equality fuel st) fun st r => logicAndLoop fuel st (.Logical e op r)
    else (st, .ok e)

/-- The `Parser::equality`. -/
def equality : Nat → PState → PState × Except Error Expr
  | 0, st => (st, .error .ParseError)
  | fuel + 1, st => pbind (comparison fuel st) fun st e => equalityLoop fuel st e

/-- The operator loop of `Parser::equality`, left-folding `Binary` nodes. -/
def equalityLoop : Nat → PState → Expr → PState × Except Error Expr
  | 0, st, _ => (st, .error .ParseError)
  | fuel + 1, st, e =>
    let (st, m) := matchNext st [.BangEqual, .EqualEqual]
    if m then
      let op := previous st
      pbind (comparison fuel st) fun st r => equalityLoop fuel st (.Binary e op r)
    else (st, .ok e)

/-- The `Parser::comparison`. -/
def comparison : Nat → PState → PState × Except Error Expr
  | 0, st => (st, .error .ParseError)
  | fuel + 1, st => pbind (term fuel st) fun st e => comparisonLoop fuel st e

/-- The operator loop of `Parser::comparison`. -/
def comparisonLoop : Nat → PState → Expr → PState × Except Error Expr
  | 0, st, _ => (st, .error .ParseError)
  | fuel + 1, st, e =>
    let (st, m) := matchNext st [.Greater, .GreaterEqual, .Less, .LessEqual]
    if m then
      let op := previous st
      pbind (term fuel st) fun st r => comparisonLoop fuel st (.Binary e op r)
    else (st, .ok e)

/-- The `Parser::term`. -/
def term : Nat → PState → PState × Except Error Expr
  | 0, st => (st, .error .ParseError)
  | fuel + 1, st => pbind (factor fuel st) fun st e => termLoop fuel st e

/-- The operator loop of `Parser::term`. -/
def termLoop : Nat → PState → Expr → PState × Except Error Expr
  | 0, st, _ => (st, .error .ParseError)
  | fuel + 1, st, e =>
    let (st, m) := matchNext st [.Minus, .Plus]
    if m then
      let op := previous st
      pbind (factor fuel st) fun st r => termLoop fuel st (.Binary e op r)
    else (st, .ok e)

/-- The `Parser::factor`. -/
def factor : Nat → PState → PState × Except Error Expr
  | 0, st => (st, .error .ParseError)
  | fuel + 1, st => pbind (unary fuel st) fun st e => factorLoop fuel st e

/-- The operator loop of `Parser::factor`. -/
def factorLoop : Nat → PState → Expr → PState × Except Error Expr
  | 0, st, _ => (st, .error .ParseError)
  | fuel + 1, st, e =>
    let (st, m) := matchNext st [.Slash, .Star]
    if m then
      let op := previous st
      pbind (unary fuel st) fun st r => factorLoop fuel st (.Binary e op r)
    else (st, .ok e)

/-- The `Parser::unary`. -/
def unary : Nat → PState → PState × Except Error Expr
  | 0, st => (st, .error .ParseError)
  | fuel + 1, st =>
    let (st1, m) := matchNext st [.Bang, .Minus]
    if m then
      let op := previous st1
      pbind (unary fuel st1) fun st r => (st, .ok (.Unary op r))
    else primary fuel st1

/-- The `Parser::primary`. -/
def primary : Nat → PState → PState × Except Error Expr
  | 0, st => (st, .error .ParseError)
  | fuel + 1, st =>
    let (st1, m) := matchNext st [.False]
    if m then (st1, .ok (.Literal (.Bool false))) else
    let (st2, m) := matchNext st1 [.True]
    if m then (st2, .ok (.Literal (.Bool true))) else
    let (st3, m) := matchNext st2 [.Nil]
    if m then (st3, .ok (.Literal .Nil)) else
    let (st4, m) := matchNext st3 [.Number, .String_]
    if m then (st4, .ok (.Literal (previous st4).literal)) else
    let (st5, m) := matchNext st4 [.LeftParen]
    if m then
      pbind (expression fuel st5) fun st e =>
      pbind (matchErr st .RightParen "Expected `)` after expression.") fun st _ =>
      (st, .ok (.Grouping e))
    else
    let (st6, m) := matchNext st5 [.Identifier]
    if m then (st6, .ok (.Variable (previous st6)))
    else
      let (st7, e) := perror st6 (peek st6) "Expected expression."
      (st7, .error e)

end

/-- The `Parser::declaration_wrapper`: convert the result to an `Option`,
synchronizing after a failed declaration. -/
def declaration_wrapper (fuel : Nat) (st : PState) : PState × Option Stmt :=
  match declaration fuel st with
  | (st', .ok s) => (st', some s)
  | (st', .error _) => (synchronize fuel st', none)

/-- The loop of `Parser::parse`: collect the statements the wrapper yields
until the `Eof` token.  The source loop's only exit returns `Ok(statements)`,
so fuel exhaustion returns the statements collected so far rather than
introducing an error path absent from the source. -/
def parseLoop : Nat → PState → List Stmt → PState × List Stmt
  | 0, st, acc => (st, acc)
  | fuel + 1, st, acc =>
    if isAtEnd st then (st, acc)
    else
      match declaration_wrapper fuel st with
      | (st', some s) => parseLoop fuel st' (acc ++ [s])
      | (st', none) => parseLoop fuel st' acc

/-- The `Parser::parse` from src/src/parser.rs: run the declaration loop and
return `Ok` of the collected statements — the error variant of the return
type is never produced. -/
def parse (fuel : Nat) (st : PState) : PState × Except Error (List Stmt) :=
  let (st', l) := parseLoop fuel st []
  (st', .ok l)

/-- The `Parser::new`. -/
def new (tokens : List Token) : PState := ⟨tokens, 0, []⟩

end Parser

/-- The desugared shape the spec claims for a `for` statement: the increment
(when present) is appended to the loop body as an expression statement inside
a Block; the result is a While; the initializer (when present) is prepended
inside a Block. -/
def desugarFor (initOpt : Option Stmt) (cond : Expr) (incOpt : Option Expr)
    (body : Stmt) : Stmt :=
  let loopBody : Stmt :=
    match incOpt with
    | some inc => .Block [body, .Expression inc]
    | none => body
  let loop : Stmt := .While cond loopBody
  match initOpt with
  | some init => .Block [init, loop]
  | none => loop

/-- The token sequence of `for (var i=0; i<3; i=i+1) print i;`. -/
def forTokens : List Token :=
  [⟨.For, "for", .Nil, 1⟩, ⟨.LeftParen, "(", .Nil, 1⟩, ⟨.Var, "var", .Nil, 1⟩,
   ⟨.Identifier, "i", .Nil, 1⟩, ⟨.Equal, "=", .Nil, 1⟩, ⟨.Number, "0", .Number 0, 1⟩,
   ⟨.Semicolon, ";", .Nil, 1⟩, ⟨.Identifier, "i", .Nil, 1⟩, ⟨.Less, "<", .Nil, 1⟩,
   ⟨.Number, "3", .Number 3, 1⟩, ⟨.Semicolon, ";", .Nil, 1⟩, ⟨.Identifier, "i", .Nil, 1⟩,
   ⟨.Equal, "=", .Nil, 1⟩, ⟨.Identifier, "i", .Nil, 1⟩, ⟨.Plus, "+", .Nil, 1⟩,
   ⟨.Number, "1", .Number 1, 1⟩, ⟨.RightParen, ")", .Nil, 1⟩,
   ⟨.Print, "print", .Nil, 1⟩, ⟨.Identifier, "i", .Nil, 1⟩, ⟨.Semicolon, ";", .Nil, 1⟩,
   ⟨.Eof, "", .Nil, 1⟩]

/-- What `for (var i=0; i<3; i=i+1) print i;` parses to:
`{ var i = 0; while (i < 3) { print i; i = i + 1; } }`. -/
def forDesugared : Stmt :=
  .Block
    [.Var ⟨.Identifier, "i", .Nil, 1⟩ (some (.Literal (.Number 0))),
     .While
       (.Binary (.Variable ⟨.Identifier, "i", .Nil, 1⟩) ⟨.Less, "<", .Nil, 1⟩
         (.Literal (.Number 3)))
       (.Block
         [.Print (.Variable ⟨.Identifier, "i", .Nil, 1⟩),
          .Expression
            (.Assign ⟨.Identifier, "i", .Nil, 1⟩
              (.Binary (.Variable ⟨.Identifier, "i", .Nil, 1⟩) ⟨.Plus, "+", .Nil, 1⟩
                (.Literal (.Number 1))))])]

/-- The token sequence of `+; *; print 1;` — two malformed statements, each
ending in `;`, followed by one valid print statement. -/
def recoveryTokens : List Token :=
  [⟨.Plus, "+", .Nil, 1⟩, ⟨.Semicolon, ";", .Nil, 1⟩,
   ⟨.Star, "*", .Nil, 1⟩, ⟨.Semicolon, ";", .Nil, 1⟩,
   ⟨.Print, "print", .Nil, 1⟩, ⟨.Number, "1", .Number 1, 1⟩, ⟨.Semicolon, ";", .Nil, 1⟩,
   ⟨.Eof, "", .Nil, 1⟩]

/-! ### Theorems -/

theorem alContains_alLookup {α : Type} (l : List (String × α)) (k : String) :
    alContains l k = true ↔ ∃ v, alLookup l k = some v := by
  unfold alContains
  cases h : alLookup l k <;> simp [Option.isSome, h]

theorem assign_error_of_not_defined (env : Environment) (tok : Token) (v : Value)
    (h : chainDefines env tok.lexeme = false) :
    Environment.assign env tok v = .error (undefinedVariableError tok) := by
  induction env with
  | nil => rfl
  | cons f rest ih =>
    unfold chainDefines at h
    rw [Bool.or_eq_false_iff] at h
    unfold Environment.assign
    rw [h.1]
    simp only [Bool.false_eq_true, if_false]
    rw [ih h.2]

/-- C9: `Environment::assign` searches outward and overwrites the binding in
the nearest (innermost) frame whose `values` map already defines the name;
every nearer frame keeps its `values` map unchanged (only its
`parent_modified` bookkeeping map gains the write); the frames beyond the
overwritten one are untouched; and the call fails with the runtime error
"Undefined variable '<name>'." exactly when no frame of the chain defines the
name. -/
theorem c9_assign_nearest_frame (env : Environment) (tok : Token) (v : Value) :
    (chainDefines env tok.lexeme = false →
      Environment.assign env tok v = .error (undefinedVariableError tok)) ∧
    (∀ pre f post, env = pre ++ f :: post →
      (∀ g ∈ pre, alContains g.values tok.lexeme = false) →
      alContains f.values tok.lexeme = true →
      Environment.assign env tok v =
        .ok ((pre.map fun g =>
                { g with parentModified := alInsert g.parentModified tok.lexeme v })
             ++ { f with values := alInsert f.values tok.lexeme (some v) } :: post)) := by
  refine ⟨assign_error_of_not_defined env tok v, ?_⟩
  intro pre
  induction pre generalizing env with
  | nil =>
    intro f post henv _ hf
    subst henv
    rw [List.nil_append]
    unfold Environment.assign
    rw [hf]
    rfl
  | cons g pre' ih =>
    intro f post henv hpre hf
    subst henv
    rw [List.cons_append]
    unfold Environment.assign
    rw [hpre g (by simp)]
    simp only [Bool.false_eq_true, if_false]
    rw [ih (pre' ++ f :: post) f post rfl (fun g' hg' => hpre g' (by simp [hg'])) hf]
    rfl

/-- Witness for C9: in the chain `[{b ↦ nil-uninitialized}, {a ↦ 1}]`,
assigning `a := 5` overwrites `a` in the outer frame and records the write in
the inner frame's `parent_modified`, while assigning to the undeclared `c`
fails with "Undefined variable 'c'.". -/
theorem c9_assign_nearest_frame_witness :
    Environment.assign
        [⟨[("b", none)], []⟩, ⟨[("a", some (Value.Number 1))], []⟩]
        ⟨.Identifier, "a", .Nil, 1⟩ (Value.Number 5) =
      .ok [⟨[("b", none)], [("a", Value.Number 5)]⟩,
           ⟨[("a", some (Value.Number 5))], []⟩] ∧
    Environment.assign
        [⟨[("b", none)], []⟩, ⟨[("a", some (Value.Number 1))], []⟩]
        ⟨.Identifier, "c", .Nil, 1⟩ (Value.Number 5) =
      .error (undefinedVariableError ⟨.Identifier, "c", .Nil, 1⟩) := by
  constructor
  · have h := (c9_assign_nearest_frame
        [⟨[("b", none)], []⟩, ⟨[("a", some (Value.Number 1))], []⟩]
        ⟨.Identifier, "a", .Nil, 1⟩ (Value.Number 5)).2
        [⟨[("b", none)], []⟩] ⟨[("a", some (Value.Number 1))], []⟩ [] rfl
        (by decide) (by decide)
    rw [h]
    rfl
  · exact (c9_assign_nearest_frame
        [⟨[("b", none)], []⟩, ⟨[("a", some (Value.Number 1))], []⟩]
        ⟨.Identifier, "c", .Nil, 1⟩ (Value.Number 5)).1 (by decide)

/-- C1 (code bug): interpreting `var a; { a = 5; } print a;` in a fresh global
environment does NOT write `5` to the output sink.  The assignment inside the
block lands in the clone of the enclosing frame held by the child environment
and is recorded in the child's `parent_modified`, but `visit_block_stmt`
never calls `Environment::update`, so after the block the global frame still
holds the uninitialized `a` and `print a` raises "Variable not initialized."
with an empty output sink. -/
theorem c1_outer_mutation_lost :
    interpret 10 c1Program ⟨Environment.new none, []⟩ =
      some (⟨[⟨[("a", none)], []⟩], []⟩,
            .error (.RuntimeError (identTok "a") "Variable not initialized.")) := by
  rfl

/-- C3 (code bug): when a runtime error propagates out of one of a block's
statements, `execute_block`'s early return skips the second `mem::swap`, so
the interpreter's environment is left as the child frame pushed for the
block, not restored to the parent.  Executing `{ print y; }` (with `y`
undefined) from the one-frame global environment ends with a two-frame
environment. -/
theorem c3_block_env_not_restored_on_error :
    execStmt 10 (.Block [.Print (.Variable (identTok "y"))]) ⟨Environment.new none, []⟩ =
      some (⟨[⟨[], []⟩, ⟨[], []⟩], []⟩,
            .error (undefinedVariableError (identTok "y"))) ∧
    ([⟨[], []⟩, ⟨[], []⟩] : Environment) ≠ Environment.new none := by
  exact ⟨rfl, by decide⟩

/-- C4: logical expressions short-circuit.  For `and`, when the left value is
falsy the left value itself is returned and the right operand is not
evaluated (the result does not depend on `r` at all); otherwise the right
operand's result is returned.  For `or`, when the left value is truthy the
left value itself is returned without evaluating the right operand; otherwise
the right operand's result is returned.  The winning operand's own value is
returned, not a coerced boolean. -/
theorem c4_logical_short_circuit (l r : Expr) (op : Token) (env env1 : Environment)
    (lv : Value) (hl : evalExpr l env = (env1, .ok lv)) :
    (op.type_ = .And → isTruthy lv = false →
      evalExpr (.Logical l op r) env = (env1, .ok lv)) ∧
    (op.type_ = .And → isTruthy lv = true →
      evalExpr (.Logical l op r) env = evalExpr r env1) ∧
    (op.type_ = .Or → isTruthy lv = true →
      evalExpr (.Logical l op r) env = (env1, .ok lv)) ∧
    (op.type_ = .Or → isTruthy lv = false →
      evalExpr (.Logical l op r) env = evalExpr r env1) := by
  refine ⟨?_, ?_, ?_, ?_⟩ <;> intro hop htr <;>
  · show visit_logical_expr (evalExpr l env) op (fun e => evalExpr r e) = _
    rw [hl]
    show (match op.type_ with
          | TokenType.And =>
            if isTruthy lv = true then evalExpr r env1 else (env1, .ok lv)
          | TokenType.Or =>
            if isTruthy lv = true then (env1, .ok lv) else evalExpr r env1
          | _ => (env1, .error (unreachableError op))) = _
    rw [hop, htr]
    simp

/-- Witness for C4: `nil and zzz` (with `zzz` undefined, so evaluating the
right operand would raise a runtime error) evaluates to `nil`: the falsy left
operand wins and the right operand is never evaluated. -/
theorem c4_logical_short_circuit_witness :
    evalExpr (.Logical (.Literal .Nil) (opTok .And "and") (.Variable (identTok "zzz"))) [] =
      ([], .ok .Nil) :=
  (c4_logical_short_circuit (.Literal .Nil) (.Variable (identTok "zzz"))
      (opTok .And "and") [] [] .Nil rfl).1 rfl rfl

theorem evalExpr_binary (l r : Expr) (op : Token) (env env1 env2 : Environment)
    (lv rv : Value) (hl : evalExpr l env = (env1, .ok lv))
    (hr : evalExpr r env1 = (env2, .ok rv)) :
    evalExpr (.Binary l op r) env = (env2, binaryOp lv op rv) := by
  show (match evalExpr l env with
        | (env1, Except.error e) => (env1, Except.error e)
        | (env1, Except.ok lv) =>
          match evalExpr r env1 with
          | (env2, Except.error e) => (env2, Except.error e)
          | (env2, Except.ok rv) => (env2, binaryOp lv op rv) :
          Environment × Except Error Value) = _
  rw [hl]
  show (match evalExpr r env1 with
        | (env2, Except.error e) => (env2, Except.error e)
        | (env2, Except.ok rv) => (env2, binaryOp lv op rv) :
        Environment × Except Error Value) = _
  rw [hr]

/-- C8: for a binary `+` whose operands evaluate without error, two numbers
add numerically; in every other case the result is the concatenation of the
two values' string representations, and that branch always succeeds (the
result is `.ok (plusValue v w)`, with no error case). -/
theorem c8_plus_concat (l r : Expr) (op : Token) (env env1 env2 : Environment)
    (v w : Value) (hl : evalExpr l env = (env1, .ok v))
    (hr : evalExpr r env1 = (env2, .ok w)) (hop : op.type_ = .Plus) :
    evalExpr (.Binary l op r) env = (env2, .ok (plusValue v w)) := by
  rw [evalExpr_binary l r op env env1 env2 _ _ hl hr]
  unfold binaryOp
  rw [hop]
  cases v <;> cases w <;> rfl

theorem scanTokens_result (fuel : Nat) (src : String) :
    (Scanner.scanTokens fuel src).2 =
      (if (Scanner.scanTokens fuel src).1.hadError then .error .ScanError
       else .ok (Scanner.scanTokens fuel src).1.tokens) := rfl

/-- C2 counterexample: scanning the source `"@"` (one lexical error) returns
the `ScanError` variant and NOT the token sequence collected so far — the
scanner state holds the collected tokens (the `Eof` terminator) and the
diagnostic, but `scan_tokens` withholds the token list from the caller. -/
theorem c2_scan_error_withholds_tokens :
    (Scanner.scanTokens 10 "@").2 = .error .ScanError ∧
    (Scanner.scanTokens 10 "@").1.tokens = [⟨.Eof, "", .Nil, 1⟩] ∧
    (Scanner.scanTokens 10 "@").1.diags = [(1, "Unexpected character")] :=
  ⟨rfl, rfl, rfl⟩

/-- C2 (amended): for ASCII sources — the scope on which the source's
byte-based length and slicing coincide with its char-based indexing; a
non-ASCII source can make the Rust scanner panic on that mismatch, a path
outside this model — lexical errors are accumulated, never fail-fast:
scanning continues past an error and keeps collecting tokens, the collected
list always ends with the synthetic `Eof` token, and `scan_tokens` returns
the token list exactly when no lexical error occurred — with any error it
returns the `ScanError` variant, withholding the (nevertheless collected)
tokens.  The concrete part: on `"@#1;"` the scanner reports two "Unexpected
character" diagnostics, still scans the later `1` and `;` tokens, and
returns the error variant. -/
theorem c2_scan_accumulates_but_withholds :
    (∀ (fuel : Nat) (src : String), src.data.all (fun c => c.toNat ≤ 127) = true →
      ((Scanner.scanTokens fuel src).1.hadError = false →
        (Scanner.scanTokens fuel src).2 = .ok (Scanner.scanTokens fuel src).1.tokens) ∧
      ((Scanner.scanTokens fuel src).1.hadError = true →
        (Scanner.scanTokens fuel src).2 = .error .ScanError) ∧
      ∃ pre n, (Scanner.scanTokens fuel src).1.tokens = pre ++ [⟨.Eof, "", .Nil, n⟩]) ∧
    ((Scanner.scanTokens 30 "@#1;").1.diags =
        [(1, "Unexpected character"), (1, "Unexpected character")] ∧
     (Scanner.scanTokens 30 "@#1;").1.tokens =
        [⟨.Number, "1", .Number 1, 1⟩, ⟨.Semicolon, ";", .Nil, 1⟩, ⟨.Eof, "", .Nil, 1⟩] ∧
     (Scanner.scanTokens 30 "@#1;").2 = .error .ScanError) := by
  refine ⟨fun fuel src _ => ⟨?_, ?_, ?_⟩, rfl, by decide, rfl⟩
  · intro h
    rw [scanTokens_result, h]
    rfl
  · intro h
    rw [scanTokens_result, h]
    rfl
  · exact ⟨(Scanner.scanLoop fuel (Scanner.new src)).tokens,
           (Scanner.scanLoop fuel (Scanner.new src)).line, rfl⟩

/-- Witness for C2 (amended): the error-free ASCII source `"1;"` yields the
token list. -/
theorem c2_scan_accumulates_but_withholds_witness :
    (Scanner.scanTokens 30 "1;").2 = .ok (Scanner.scanTokens 30 "1;").1.tokens :=
  (c2_scan_accumulates_but_withholds.1 30 "1;" (by decide)).1 rfl

/-- C5 (code bug): the block-comment loop of `scan_token` uses the condition
`peek() != '*' && peek_next() != '/' && !is_at_end()`, which stops at the
first character whose successor is `/` (or the first `*`) instead of at the
first `*/` pair.  Scanning `"/*a/b*/"` therefore stops the comment right
before `a`, consumes only `a/`, and produces the tokens `b`, `*`, `/` from
the comment's interior instead of no tokens at all. -/
theorem c5_block_comment_interior_tokenized :
    (Scanner.scanTokens 30 "/*a/b*/").1.tokens =
      [⟨.Identifier, "b", .Nil, 1⟩, ⟨.Star, "*", .Nil, 1⟩,
       ⟨.Slash, "/", .Nil, 1⟩, ⟨.Eof, "", .Nil, 1⟩] ∧
    (Scanner.scanTokens 30 "/*a/b*/").1.tokens ≠ [⟨.Eof, "", .Nil, 1⟩] :=
  ⟨rfl, by decide⟩

/-- C6: a successful `for_statement` parse yields no for-specific node (the
`Stmt` type has none): the result is exactly the clauses parsed in source
order, desugared as `desugarFor` — a While whose body carries the increment
as a trailing expression statement when present, wrapped in a Block with the
initializer when present — and the While condition is the boolean-true
literal whenever the condition clause was omitted (a `;` directly follows the
initializer). -/
theorem c6_for_desugars (fuel : Nat) (st stF : PState) (r : Stmt)
    (h : Parser.for_statement (fuel + 1) st = (stF, .ok r)) :
    ∃ stA tkA stB initOpt stC cond stD tkD stE incOpt stG tkG body,
      Parser.matchErr st .LeftParen "Expect `(` after `for`." = (stA, .ok tkA) ∧
      Parser.forInitializer fuel stA = (stB, .ok initOpt) ∧
      Parser.forCondition fuel stB = (stC, .ok cond) ∧
      (Parser.check stB .Semicolon = true → cond = .Literal (.Bool true)) ∧
      Parser.matchErr stC .Semicolon "Expected `;` after `for` condition." = (stD, .ok tkD) ∧
      Parser.forIncrement fuel stD = (stE, .ok incOpt) ∧
      Parser.matchErr stE .RightParen "Expected `)` after `for` clause." = (stG, .ok tkG) ∧
      Parser.statement fuel stG = (stF, .ok body) ∧
      r = desugarFor initOpt cond incOpt body := by
  unfold Parser.for_statement at h
  rcases hA : Parser.matchErr st .LeftParen "Expect `(` after `for`." with ⟨stA, resA⟩
  rw [hA] at h
  cases resA with
  | error e => simp [pbind] at h
  | ok tkA =>
  simp only [pbind] at h
  rcases hB : Parser.forInitializer fuel stA with ⟨stB, resB⟩
  rw [hB] at h
  cases resB with
  | error e => simp [pbind] at h
  | ok initOpt =>
  simp only [pbind] at h
  rcases hC : Parser.forCondition fuel stB with ⟨stC, resC⟩
  rw [hC] at h
  cases resC with
  | error e => simp [pbind] at h
  | ok cond =>
  simp only [pbind] at h
  rcases hD : Parser.matchErr stC .Semicolon "Expected `;` after `for` condition." with ⟨stD, resD⟩
  rw [hD] at h
  cases resD with
  | error e => simp [pbind] at h
  | ok tkD =>
  simp only [pbind] at h
  rcases hE : Parser.forIncrement fuel stD with ⟨stE, resE⟩
  rw [hE] at h
  cases resE with
  | error e => simp [pbind] at h
  | ok incOpt =>
  simp only [pbind] at h
  rcases hG : Parser.matchErr stE .RightParen "Expected `)` after `for` clause." with ⟨stG, resG⟩
  rw [hG] at h
  cases resG with
  | error e => simp [pbind] at h
  | ok tkG =>
  simp only [pbind] at h
  rcases hS : Parser.statement fuel stG with ⟨stH, resH⟩
  rw [hS] at h
  cases resH with
  | error e => simp [pbind] at h
  | ok body =>
  simp only [pbind] at h
  rw [Prod.mk.injEq] at h
  obtain ⟨h1, h2⟩ := h
  subst h1
  refine ⟨stA, tkA, stB, initOpt, stC, cond, stD, tkD, stE, incOpt, stG, tkG, body,
    rfl, hB, hC, ?_, hD, hE, hG, hS, ?_⟩
  · intro hchk
    cases fuel with
    | zero => simp [Parser.forCondition] at hC
    | succ fuel' =>
      simp only [Parser.forCondition] at hC
      rw [hchk] at hC
      simp at hC
      exact hC.2.symm
  · rw [← Except.ok.inj h2]
    cases incOpt <;> cases initOpt <;> rfl

/-- Witness for C6: parsing `for (var i=0; i<3; i=i+1) print i;` (cursor just
past the `for` keyword) succeeds with `forDesugared`, so the clause equations
and the desugared shape hold at this input. -/
theorem c6_for_desugars_witness :
    ∃ stA tkA stB initOpt stC cond stD tkD stE incOpt stG tkG body,
      Parser.matchErr ⟨forTokens, 1, []⟩ .LeftParen "Expect `(` after `for`." = (stA, .ok tkA) ∧
      Parser.forInitializer 29 stA = (stB, .ok initOpt) ∧
      Parser.forCondition 29 stB = (stC, .ok cond) ∧
      (Parser.check stB .Semicolon = true → cond = .Literal (.Bool true)) ∧
      Parser.matchErr stC .Semicolon "Expected `;` after `for` condition." = (stD, .ok tkD) ∧
      Parser.forIncrement 29 stD = (stE, .ok incOpt) ∧
      Parser.matchErr stE .RightParen "Expected `)` after `for` clause." = (stG, .ok tkG) ∧
      Parser.statement 29 stG = (⟨forTokens, 20, []⟩, .ok body) ∧
      forDesugared = desugarFor initOpt cond incOpt body :=
  c6_for_desugars 29 ⟨forTokens, 1, []⟩ ⟨forTokens, 20, []⟩ forDesugared rfl

/-- C10: `Parser::parse` never returns the error variant — for every token
sequence ending in the `Eof` token it returns `Ok` of the declarations the
wrapper collected (failed declarations are reported, synchronized past, and
omitted).  The concrete part: on `+; *; print 1;` the parse returns `Ok`
with exactly the one valid statement and two reported diagnostics, so a
caller cannot distinguish this recovered parse from an error-free one by the
return value alone. -/
theorem c10_parse_never_errors :
    (∀ (fuel : Nat) (st : PState),
      (∃ pre tk, st.tokens = pre ++ [tk] ∧ tk.type_ = TokenType.Eof) →
      ∃ l, (Parser.parse fuel st).2 = .ok l) ∧
    Parser.parse 30 (Parser.new recoveryTokens) =
      (⟨recoveryTokens, 7,
        [(⟨.Plus, "+", .Nil, 1⟩, "Expected expression."),
         (⟨.Star, "*", .Nil, 1⟩, "Expected expression.")]⟩,
       .ok [.Print (.Literal (.Number 1))]) := by
  constructor
  · intro fuel st _
    exact ⟨(Parser.parseLoop fuel st []).2, rfl⟩
  · rfl

/-- Witness for C10: the recovery token sequence ends in `Eof`, and `parse`
returns the `Ok` variant on it. -/
theorem c10_parse_never_errors_witness :
    ∃ l, (Parser.parse 30 (Parser.new recoveryTokens)).2 = .ok l :=
  c10_parse_never_errors.1 30 (Parser.new recoveryTokens)
    ⟨recoveryTokens.dropLast, ⟨.Eof, "", .Nil, 1⟩, rfl, rfl⟩

/-- Witness for C8: `1 + "a"` evaluates to the string `"1a"`. -/
theorem c8_plus_concat_witness :
    evalExpr (.Binary (.Literal (.Number 1)) (opTok .Plus "+") (.Literal (.String_ "a"))) [] =
      ([], .ok (.String_ "1a")) := by
  have h := c8_plus_concat (.Literal (.Number 1)) (.Literal (.String_ "a"))
    (opTok .Plus "+") [] [] [] (.Number 1) (.String_ "a") rfl rfl rfl
  simpa using h

end Toy
